import Mathlib

/-!
Shallow embedding of the xlog-rs handle-lifecycle and marshalling layer
(crates/xlog, crates/xlog-android-jni, crates/mars-xlog-harmony-napi), and
proofs about its claims: configuration validation and marshalling, string
sanitization at the FFI boundary, the variable-length output protocol,
the reference-counted handle lifecycle, the numeric handle registry, and
level gating on the write paths.

Rust strings are modelled as lists of characters (`RStr`); the character
U+0000 models the zero byte, which in UTF-8 occurs exactly for that
character. Raw C pointers that may be null are modelled as `Option RStr`
(`Option.none` = null). Native engine behaviour is an oracle parameter
(`Engine` / `NativeReply`); calls into the engine and marshalling steps are
recorded in explicit event traces.
-/

namespace XlogRs

/-- Rust `String`/`str` values, as lists of characters. -/
abbrev RStr := List Char

/-- The NUL character, modelling the zero byte. -/
def nulChar : Char := Char.ofNat 0

/-- Does the string contain an embedded NUL byte?  Models
`s.as_bytes().contains(&0)` from crates/xlog/src/lib.rs. -/
def hasNul (s : RStr) : Bool := s.any (fun c => c = nulChar)

/-- Model of `str::replace('\0', "")`: drop every NUL character. -/
def removeNul (s : RStr) : RStr := s.filter (fun c => c ≠ nulChar)

/-- Model of `CString::new`: fails (returns `Option.none`) exactly when the
string still contains an interior NUL byte; otherwise yields the C-string
contents. -/
def cstringNew (s : RStr) : Option RStr :=
  if hasNul s then Option.none else some s

/-- The `clean` string computed by `to_cstring` and `CStringHolder::new` in
crates/xlog/src/lib.rs: replace NULs only when one is present. -/
def sanitize (s : RStr) : RStr :=
  if hasNul s then removeNul s else s

/-- `to_cstring` from crates/xlog/src/lib.rs: sanitize, convert to a
`CString` (pushed into the caller-owned `storage` vector), with the
`unwrap_or_else` fallback producing `"<invalid>"`.  Returns the contents of
the resulting C string. -/
def to_cstring (s : RStr) : RStr :=
  (cstringNew (sanitize s)).getD "<invalid>".toList

/-- `CStringHolder::new` from crates/xlog/src/lib.rs: same sanitization,
but the (unreachable) fallback is the empty string. -/
def cstringHolderNew (s : RStr) : RStr :=
  (cstringNew (sanitize s)).getD []

/-- `LogLevel` from crates/xlog/src/lib.rs. -/
inductive LogLevel where
  | verbose
  | debug
  | info
  | warn
  | error
  | fatal
  | none
deriving DecidableEq, Repr

/-- `LogLevel::as_sys` mapped through the `TLogLevel` values declared in
crates/xlog-sys/src/lib.rs (kLevelVerbose = 0 … kLevelNone = 6). -/
def LogLevel.as_sys : LogLevel → Int
  | .verbose => 0
  | .debug => 1
  | .info => 2
  | .warn => 3
  | .error => 4
  | .fatal => 5
  | .none => 6

/-- `level_rank` from crates/xlog/src/tracing_layer.rs. -/
def level_rank : LogLevel → Nat
  | .verbose => 0
  | .debug => 1
  | .info => 2
  | .warn => 3
  | .error => 4
  | .fatal => 5
  | .none => 6

/-- `level_to_u8` from crates/xlog/src/tracing_layer.rs. -/
def level_to_u8 (level : LogLevel) : Nat := level_rank level

/-- `level_from_u8` from crates/xlog/src/tracing_layer.rs. -/
def level_from_u8 (value : Nat) : LogLevel :=
  match value with
  | 0 => .verbose
  | 1 => .debug
  | 2 => .info
  | 3 => .warn
  | 4 => .error
  | 5 => .fatal
  | _ => .none

/-- `to_log_level` from crates/xlog-android-jni/src/lib.rs (the argument is
a Java `jint`). -/
def to_log_level (value : Int) : LogLevel :=
  match value with
  | 0 => .verbose
  | 1 => .debug
  | 2 => .info
  | 3 => .warn
  | 4 => .error
  | 5 => .fatal
  | _ => .none

/-- The ordinal returned by `nativeGetLevel` in
crates/xlog-android-jni/src/lib.rs for a logger found in the registry. -/
def nativeGetLevel_ordinal : LogLevel → Int
  | .verbose => 0
  | .debug => 1
  | .info => 2
  | .warn => 3
  | .error => 4
  | .fatal => 5
  | .none => 6

/-- `AppenderMode` from crates/xlog/src/lib.rs. -/
inductive AppenderMode where
  | async
  | sync
deriving DecidableEq, Repr

/-- `AppenderMode::as_sys` via `TAppenderMode` (kAppenderAsync = 0,
kAppenderSync = 1). -/
def AppenderMode.as_sys : AppenderMode → Int
  | .async => 0
  | .sync => 1

/-- `CompressMode` from crates/xlog/src/lib.rs. -/
inductive CompressMode where
  | zlib
  | zstd
deriving DecidableEq, Repr

/-- `CompressMode::as_sys` via `TCompressMode` (kZlib = 0, kZstd = 1). -/
def CompressMode.as_sys : CompressMode → Int
  | .zlib => 0
  | .zstd => 1

/-- `FileIoAction` from crates/xlog/src/lib.rs. -/
inductive FileIoAction where
  | actionNone
  | success
  | unnecessary
  | openFailed
  | readFailed
  | writeFailed
  | closeFailed
  | removeFailed
deriving DecidableEq, Repr

/-- `impl From<c_int> for FileIoAction` from crates/xlog/src/lib.rs. -/
def FileIoAction.fromInt (value : Int) : FileIoAction :=
  match value with
  | 1 => .success
  | 2 => .unnecessary
  | 3 => .openFailed
  | 4 => .readFailed
  | 5 => .writeFailed
  | 6 => .closeFailed
  | 7 => .removeFailed
  | _ => .actionNone

/-- `XlogError` from crates/xlog/src/lib.rs. -/
inductive XlogError where
  | invalidConfig
  | initFailed
deriving DecidableEq, Repr

/-- `XlogConfig` from crates/xlog/src/lib.rs.  Optional fields are
`Option`; numeric fields are the mathematical integers carried by the
`i32` values. -/
structure XlogConfig where
  log_dir : RStr
  namePrefix : RStr
  pub_key : Option RStr
  cache_dir : Option RStr
  cache_days : Int
  mode : AppenderMode
  compress_mode : CompressMode
  compress_level : Int
deriving DecidableEq, Repr

/-- `XlogConfig::new` from crates/xlog/src/lib.rs: required fields plus
defaults. -/
def XlogConfig.mk' (log_dir namePfx : RStr) : XlogConfig :=
  { log_dir := log_dir
    namePrefix := namePfx
    pub_key := Option.none
    cache_dir := Option.none
    cache_days := 0
    mode := .async
    compress_mode := .zlib
    compress_level := 6 }

/-- `sys::MarsXlogConfig` from crates/xlog-sys/src/lib.rs.  The
`*const c_char` fields are `Option RStr`: `Option.none` models the null
pointer, `some s` a non-null pointer to a NUL-terminated buffer whose
contents are `s`. -/
structure MarsXlogConfig where
  mode : Int
  logdir : Option RStr
  nameprefix : Option RStr
  pub_key : Option RStr
  compress_mode : Int
  compress_level : Int
  cache_dir : Option RStr
  cache_days : Int
deriving DecidableEq, Repr

/-- `XlogConfig::to_sys` from crates/xlog/src/lib.rs: marshal the config
into the native parameter block.  The second component models the
`Vec<CString>` storage vector that owns every marshalled string (it is
kept alive by the caller for the duration of the native call); pushes
happen in source order: log_dir, name prefix, then the optional fields
when present.  Absent optional fields become the null pointer
(`ptr::null()`), never an empty string. -/
def XlogConfig.to_sys (cfg : XlogConfig) : MarsXlogConfig × List RStr :=
  let log_dir := to_cstring cfg.log_dir
  let namePfx := to_cstring cfg.namePrefix
  let st2 : List RStr := [log_dir, namePfx]
  let pk : Option RStr × List RStr :=
    match cfg.pub_key with
    | some s => (some (to_cstring s), st2 ++ [to_cstring s])
    | Option.none => (Option.none, st2)
  let cd : Option RStr × List RStr :=
    match cfg.cache_dir with
    | some s => (some (to_cstring s), pk.2 ++ [to_cstring s])
    | Option.none => (Option.none, pk.2)
  ({ mode := cfg.mode.as_sys
     logdir := some log_dir
     nameprefix := some namePfx
     pub_key := pk.1
     compress_mode := cfg.compress_mode.as_sys
     compress_level := cfg.compress_level
     cache_dir := cd.1
     cache_days := cfg.cache_days }, cd.2)

/-- `sys::XLoggerInfo` from crates/xlog-sys/src/lib.rs, with string
pointers that `write_with_meta` always fills with non-null C strings. -/
structure XLoggerInfo where
  level : Int
  tag : RStr
  filename : RStr
  func_name : RStr
  line : Int
  timeval : Nat × Nat
  pid : Int
  tid : Int
  maintid : Int
  traceLog : Int
deriving DecidableEq, Repr

/-- Calls into the native engine that the wrapper can make. -/
inductive SysCall where
  | newInstance (cfg : MarsXlogConfig) (level : Int)
  | appenderOpen (cfg : MarsXlogConfig) (level : Int)
  | oneshotFlush (cfg : MarsXlogConfig)
  | releaseInstance (name : RStr)
  | writeLog (inst : Nat) (info : XLoggerInfo) (msg : RStr)
deriving DecidableEq, Repr

/-- Observable work performed by a wrapper operation, in order:
marshalling strings into C buffers, formatting an event message, and
calls into the native engine. -/
inductive Event where
  | marshal (strings : List RStr)
  | format (msg : RStr)
  | call (c : SysCall)
deriving DecidableEq, Repr

/-- Oracle for the opaque native engine: the values its calls return.
`is_enabled` and `get_level` return the raw `c_int`s; `oneshot_flush`
returns the success flag and the out-parameter action code; `now` models
`gettimeofday`. -/
structure Engine where
  new_instance : MarsXlogConfig → Int → Nat
  oneshot_flush : MarsXlogConfig → Nat × Int
  is_enabled : Nat → Int → Int
  get_level : Nat → Int
  now : Nat × Nat

/-- `Inner` from crates/xlog/src/lib.rs: the reference-counted payload of
an `Xlog` handle. -/
structure Inner where
  instanceId : Nat
  namePrefix : RStr
deriving DecidableEq, Repr

/-- `Xlog::new` from crates/xlog/src/lib.rs (also the body of
`Xlog::init`).  Returns the result together with the trace of marshalling
and native-call events the run performs. -/
def Xlog.new (e : Engine) (cfg : XlogConfig) (level : LogLevel) :
    Except XlogError Inner × List Event :=
  if cfg.log_dir.isEmpty || cfg.namePrefix.isEmpty then
    (.error .invalidConfig, [])
  else
    let sys := cfg.to_sys
    let inst := e.new_instance sys.1 level.as_sys
    if inst = 0 then
      (.error .initFailed, [.marshal sys.2, .call (.newInstance sys.1 level.as_sys)])
    else
      (.ok ⟨inst, cfg.namePrefix⟩, [.marshal sys.2, .call (.newInstance sys.1 level.as_sys)])

/-- `Xlog::appender_open` from crates/xlog/src/lib.rs. -/
def Xlog.appender_open (e : Engine) (cfg : XlogConfig) (level : LogLevel) :
    Except XlogError Unit × List Event :=
  if cfg.log_dir.isEmpty || cfg.namePrefix.isEmpty then
    (.error .invalidConfig, [])
  else
    let sys := cfg.to_sys
    (.ok (), [.marshal sys.2, .call (.appenderOpen sys.1 level.as_sys)])

/-- `Xlog::oneshot_flush` from crates/xlog/src/lib.rs. -/
def Xlog.oneshot_flush (e : Engine) (cfg : XlogConfig) :
    Except XlogError FileIoAction × List Event :=
  if cfg.log_dir.isEmpty || cfg.namePrefix.isEmpty then
    (.error .invalidConfig, [])
  else
    let sys := cfg.to_sys
    let r := e.oneshot_flush sys.1
    if r.1 = 0 then
      (.error .initFailed, [.marshal sys.2, .call (.oneshotFlush sys.1)])
    else
      (.ok (FileIoAction.fromInt r.2), [.marshal sys.2, .call (.oneshotFlush sys.1)])

/-- `Xlog::is_enabled` from crates/xlog/src/lib.rs: the native query result
compared against zero. -/
def Xlog.is_enabled (e : Engine) (inner : Inner) (level : LogLevel) : Bool :=
  e.is_enabled inner.instanceId level.as_sys != 0

/-- `Xlog::write_with_meta` from crates/xlog/src/lib.rs: gate on
`is_enabled`, then marshal tag (defaulting to the name prefix), file,
function and message, stamp the time, and invoke the native write.
Returns the trace of marshalling and native-call events. -/
def Xlog.write_with_meta (e : Engine) (inner : Inner) (level : LogLevel)
    (tag : Option RStr) (file func : RStr) (line : Nat) (msg : RStr) :
    List Event :=
  if !(Xlog.is_enabled e inner level) then []
  else
    let tag_c := to_cstring (tag.getD inner.namePrefix)
    let file_c := to_cstring file
    let func_c := to_cstring func
    let msg_c := to_cstring msg
    let info : XLoggerInfo :=
      { level := level.as_sys
        tag := tag_c
        filename := file_c
        func_name := func_c
        line := (line : Int)
        timeval := e.now
        pid := -1
        tid := -1
        maintid := -1
        traceLog := 0 }
    [.marshal [tag_c, file_c, func_c, msg_c],
     .call (.writeLog inner.instanceId info msg_c)]

/-- `Xlog::write` from crates/xlog/src/lib.rs: gate, then delegate with
empty file/function metadata and line 0. -/
def Xlog.write (e : Engine) (inner : Inner) (level : LogLevel)
    (tag : Option RStr) (msg : RStr) : List Event :=
  if !(Xlog.is_enabled e inner level) then []
  else Xlog.write_with_meta e inner level tag [] [] 0 msg

/-- `Xlog::log` from crates/xlog/src/lib.rs: gate, then delegate with the
caller location captured by `#[track_caller]` (file and line; function
name empty). -/
def Xlog.log (e : Engine) (inner : Inner) (level : LogLevel)
    (tag : Option RStr) (callerFile : RStr) (callerLine : Nat) (msg : RStr) :
    List Event :=
  if !(Xlog.is_enabled e inner level) then []
  else Xlog.write_with_meta e inner level tag callerFile [] callerLine msg

/-- The `tracing::Level` values (TRACE, DEBUG, INFO, WARN, ERROR). -/
inductive TracingLevel where
  | trace
  | debug
  | info
  | warn
  | error
deriving DecidableEq, Repr

/-- `tracing_level_to_log_level` from crates/xlog/src/tracing_layer.rs. -/
def tracing_level_to_log_level : TracingLevel → LogLevel
  | .trace => .verbose
  | .debug => .debug
  | .info => .info
  | .warn => .warn
  | .error => .error

/-- `LayerState` from crates/xlog/src/tracing_layer.rs: the adapter's own
enabled flag, its level stored as the raw `u8` of an `AtomicU8`, and the
wrapped logger handle. -/
structure LayerState where
  enabled : Bool
  levelU8 : Nat
  logger : Inner
deriving DecidableEq, Repr

/-- `XlogLayer` from crates/xlog/src/tracing_layer.rs (the shared
`LayerState` plus the layer-local tag and include_spans options). -/
structure XlogLayer where
  state : LayerState
  tag : Option RStr
  include_spans : Bool
deriving DecidableEq, Repr

/-- `XlogLayer::is_enabled_for` from crates/xlog/src/tracing_layer.rs. -/
def XlogLayer.is_enabled_for (L : XlogLayer) (level : LogLevel) : Bool :=
  if !L.state.enabled then false
  else decide (level_rank level ≥ level_rank (level_from_u8 L.state.levelU8))

/-- A structured `tracing` event as seen by `on_event`: its level, the
visitor-recorded message and non-message fields (in record order), the
metadata name, target, file, module path and line, and the span scope
(`Option.none` when `ctx.event_scope` yields nothing, otherwise the span
names from root to leaf). -/
structure TracingEvent where
  level : TracingLevel
  message : Option RStr
  fields : List (RStr × RStr)
  name : RStr
  target : RStr
  file : Option RStr
  module_path : Option RStr
  line : Option Nat
  scope : Option (List RStr)
deriving DecidableEq, Repr

/-- The opening brace character. -/
def openBrace : Char := Char.ofNat 123

/-- The closing brace character. -/
def closeBrace : Char := Char.ofNat 125

/-- `EventVisitor::finish` from crates/xlog/src/tracing_layer.rs: the
primary message followed, when fields exist, by a brace-wrapped
comma-separated `key=value` rendering. -/
def visitor_finish (message : Option RStr) (fields : List (RStr × RStr)) :
    RStr :=
  let output := message.getD []
  if fields.isEmpty then output
  else
    (if output.isEmpty then output else output ++ [' '])
      ++ [openBrace]
      ++ List.intercalate ", ".toList
          (fields.map (fun nv => nv.1 ++ ['='] ++ nv.2))
      ++ [closeBrace]

/-- The span-scope rendering loop of `on_event` (names joined by " > ",
with the separator skipped while the accumulator is still empty). -/
def renderScope (names : List RStr) : RStr :=
  names.foldl
    (fun acc n =>
      if acc.isEmpty then acc ++ n else acc ++ " > ".toList ++ n)
    []

/-- `XlogLayer::on_event` from crates/xlog/src/tracing_layer.rs: check the
level against `LogLevel::None`, the adapter's own gate, and the native
handle's gate; only then render the message (a `.format` event) and
forward to `write_with_meta`. -/
def XlogLayer.on_event (e : Engine) (L : XlogLayer) (ev : TracingEvent) :
    List Event :=
  let level := tracing_level_to_log_level ev.level
  if level = LogLevel.none then []
  else if !(L.is_enabled_for level) then []
  else if !(Xlog.is_enabled e L.state.logger level) then []
  else
    let msg0 := visitor_finish ev.message ev.fields
    let msg1 :=
      if L.include_spans then
        match ev.scope with
        | some names =>
            let spans := renderScope names
            if spans.isEmpty then msg0
            else if msg0.isEmpty then spans
            else ['['] ++ spans ++ [']', ' '] ++ msg0
        | Option.none => msg0
      else msg0
    let message := if msg1.isEmpty then ev.name else msg1
    let tag := L.tag.getD ev.target
    let file := ev.file.getD "<unknown>".toList
    let modulePath := ev.module_path.getD "<unknown>".toList
    let line := ev.line.getD 0
    .format message
      :: Xlog.write_with_meta e L.state.logger level (some tag) file
          modulePath line message

/-- The release key used by `Drop for Inner` in crates/xlog/src/lib.rs:
`CString::new(name_prefix)` fails exactly when the name contains an
interior NUL byte, in which case the `unwrap_or_else` falls back to the
literal name "xlog". -/
def releaseKey (namePfx : RStr) : RStr :=
  if hasNul namePfx then "xlog".toList else namePfx

/-- A shared-ownership operation on one `Xlog` handle: `Clone for Xlog`
(a new owner) or dropping one owner.  Owners may live in any bridge
(locals, the JNI registry, a NAPI object); all share the same `Arc`. -/
inductive OwnOp where
  | clone
  | drop
deriving DecidableEq, Repr

/-- Owner count of an `Arc<Inner>` together with the trace of native
release calls made by `Drop for Inner`. -/
structure LifeState where
  owners : Nat
  releases : List RStr
deriving DecidableEq, Repr

/-- State right after a successful `Xlog::new`: one owner, no release. -/
def initLife : LifeState := ⟨1, []⟩

/-- One ownership step: cloning requires a live owner and increments the
count; dropping decrements it, and dropping the last owner runs
`Drop for Inner`, emitting exactly one native release keyed by
`releaseKey`.  Operations on a dead handle (count 0) are impossible in
Rust and yield `Option.none`. -/
def stepOwn (namePfx : RStr) (s : LifeState) : OwnOp → Option LifeState
  | .clone =>
      if s.owners = 0 then Option.none
      else some ⟨s.owners + 1, s.releases⟩
  | .drop =>
      if s.owners = 0 then Option.none
      else if s.owners = 1 then
        some ⟨0, s.releases ++ [releaseKey namePfx]⟩
      else some ⟨s.owners - 1, s.releases⟩

/-- Run a sequence of ownership operations. -/
def runOwn (namePfx : RStr) : LifeState → List OwnOp → Option LifeState
  | s, [] => some s
  | s, op :: ops =>
      match stepOwn namePfx s op with
      | some s2 => runOwn namePfx s2 ops
      | Option.none => Option.none

/-- The lifecycle invariant: either the handle is still alive and no
release has happened, or it is dead and exactly one release (with the
drop key) has happened. -/
def lifeInv (namePfx : RStr) (s : LifeState) : Prop :=
  (s.owners = 0 ∧ s.releases = [releaseKey namePfx])
    ∨ (0 < s.owners ∧ s.releases = [])

/-- 64-bit two's-complement wrap-around, the semantics of
`AtomicI64::fetch_add` (9223372036854775808 = 2^63). -/
def wrap64 (n : Int) : Int :=
  (n + 9223372036854775808) % 18446744073709551616 - 9223372036854775808

/-- The JNI registry state from crates/xlog-android-jni/src/lib.rs: the
`NEXT_ID` atomic counter and the `LOGGERS` table.  The `HashMap<i64, Xlog>`
is modelled as a partial function; stored handles are opaque `Nat`s. -/
structure RegState where
  nextId : Int
  table : Int → Option Nat

/-- Initial registry state: `NEXT_ID` starts at 1, table empty. -/
def regInit : RegState := ⟨1, fun _ => Option.none⟩

/-- `next_id` from crates/xlog-android-jni/src/lib.rs:
`NEXT_ID.fetch_add(1, SeqCst)` returns the old value and stores the
wrapped successor. -/
def next_id (s : RegState) : Int × RegState :=
  (s.nextId, ⟨wrap64 (s.nextId + 1), s.table⟩)

/-- `insert_logger` from crates/xlog-android-jni/src/lib.rs. -/
def insert_logger (h : Nat) (s : RegState) : Int × RegState :=
  let r := next_id s
  (r.1, ⟨r.2.nextId, Function.update r.2.table r.1 (some h)⟩)

/-- `get_logger` from crates/xlog-android-jni/src/lib.rs: lookup (the
returned handle is a fresh clone of the stored one). -/
def get_logger (id : Int) (s : RegState) : Option Nat := s.table id

/-- `remove_logger` from crates/xlog-android-jni/src/lib.rs: remove the
mapping, reporting whether an entry existed. -/
def remove_logger (id : Int) (s : RegState) : Bool × RegState :=
  ((s.table id).isSome, ⟨s.nextId, Function.update s.table id Option.none⟩)

/-- `nativeReleaseLogger` from crates/xlog-android-jni/src/lib.rs: handle
0 returns false without touching the table; otherwise remove. -/
def nativeReleaseLogger (handle : Int) (s : RegState) : Bool × RegState :=
  if handle = 0 then (false, s) else remove_logger handle s

/-- A registry mutation: insert a handle or remove an id. -/
inductive RegOp where
  | insert (h : Nat)
  | remove (id : Int)

/-- Run registry operations, collecting the ids returned by the inserts
in order. -/
def regRun : RegState → List RegOp → RegState × List Int
  | s, [] => (s, [])
  | s, RegOp.insert h :: ops =>
      let r := insert_logger h s
      let rest := regRun r.2 ops
      (rest.1, r.1 :: rest.2)
  | s, RegOp.remove id :: ops =>
      regRun (remove_logger id s).2 ops

/-- Number of inserts in an operation sequence. -/
def countInserts : List RegOp → Nat
  | [] => 0
  | RegOp.insert _ :: ops => countInserts ops + 1
  | RegOp.remove _ :: ops => countInserts ops

/-- Iterated wrapped increment of the id counter. -/
def iterWrap (c : Int) : Nat → Int
  | 0 => c
  | k + 1 => iterWrap (wrap64 (c + 1)) k

/-- A trace consisting only of inserts. -/
def insertsOnly (n : Nat) : List RegOp := List.replicate n (RegOp.insert 0)

/-- The reply behaviour of a variable-length native text query
(`mars_xlog_get_filepath_from_timespan` / `mars_xlog_make_logfile_name`):
the call always returns `required` (the byte length of the joined output
including the trailing NUL) and writes the NUL-terminated output into the
caller's buffer exactly when the capacity suffices. -/
structure NativeReply where
  required : Nat
  content : RStr
deriving DecidableEq, Repr

/-- One native query call against a caller buffer: write the output
(padded with NUL up to the capacity) when it fits, else leave the buffer
untouched. -/
def callNative (r : NativeReply) (buf : RStr) : RStr :=
  if r.required ≤ buf.length then
    r.content ++ List.replicate (buf.length - r.content.length) nulChar
  else buf

/-- `CStr::from_ptr` on a buffer: the characters before the first NUL. -/
def cstrRead (buf : RStr) : RStr := buf.takeWhile (fun c => c ≠ nulChar)

/-- Rust `str::split('\n')` (splitting "" gives [""], "a\nb" gives
["a", "b"], and a trailing newline gives a trailing ""). -/
def splitNl (s : RStr) : List RStr :=
  s.foldr
    (fun c acc =>
      if c = '\n' then [] :: acc
      else
        match acc with
        | [] => [[c]]
        | a :: rest => (c :: a) :: rest)
    [[]]

/-- `read_joined` from crates/xlog/src/lib.rs: probe with a 4096-byte
zeroed buffer; if the required length exceeds the capacity, resize to the
required length (`Vec::resize` with zero fill) and call exactly once
more; then read up to the first NUL and split on newlines, mapping the
empty string to the empty vector.  The second component records the
capacity passed to each native call, in order. -/
def read_joined (r : NativeReply) : List RStr × List Nat :=
  let buf := List.replicate 4096 nulChar
  let buf1 := callNative r buf
  if 4096 < r.required then
    let buf2 := buf1 ++ List.replicate (r.required - buf1.length) nulChar
    let buf3 := callNative r buf2
    let s := cstrRead buf3
    (if s.isEmpty then [] else splitNl s, [4096, buf2.length])
  else
    let s := cstrRead buf1
    (if s.isEmpty then [] else splitNl s, [4096])

/-- A concrete engine oracle for evaluating runs: every query returns 0. -/
def trivEngine : Engine :=
  { new_instance := fun _ _ => 0
    oneshot_flush := fun _ => (0, 0)
    is_enabled := fun _ _ => 0
    get_level := fun _ => 0
    now := (0, 0) }

/-- A concrete configuration with pub_key set and cache_dir unset. -/
def cfgPubOnly : XlogConfig :=
  { XlogConfig.mk' ['d'] ['p'] with pub_key := some ['k'] }

/-- A concrete handle payload. -/
def innerEx : Inner := ⟨1, ['p']⟩

/-- A concrete adapter layer over `innerEx` (enabled, minimum level Info,
no tag override, spans excluded). -/
def layerEx : XlogLayer := ⟨⟨true, 2, innerEx⟩, Option.none, false⟩

/-- A concrete tracing event at Info with a plain message. -/
def evEx : TracingEvent :=
  ⟨.info, some ['h', 'i'], [], ['n'], ['t'], Option.none, Option.none,
    Option.none, Option.none⟩

end XlogRs

namespace XlogRs

/-- Helper: the sanitized string never contains a NUL character. -/
theorem hasNul_removeNul (s : RStr) : hasNul (removeNul s) = false := by
  by_contra h
  rw [Bool.not_eq_false] at h
  unfold hasNul at h
  rw [List.any_eq_true] at h
  obtain ⟨c, hc, hceq⟩ := h
  unfold removeNul at hc
  rw [List.mem_filter] at hc
  have h1 : c ≠ nulChar := by simpa using hc.2
  have h2 : c = nulChar := by simpa using hceq
  exact h1 h2

/-- Helper: the conditional replacement in `to_cstring` always amounts to
dropping every NUL character. -/
theorem sanitize_eq_removeNul (s : RStr) : sanitize s = removeNul s := by
  unfold sanitize
  by_cases h : hasNul s = true
  · simp [h]
  · have hfalse : hasNul s = false := by
      simpa using h
    have hall : ∀ c ∈ s, ¬ c = nulChar := by
      intro c hc
      by_contra hceq
      have : hasNul s = true := by
        unfold hasNul
        simp only [List.any_eq_true]
        exact ⟨c, hc, by simpa using hceq⟩
      rw [this] at hfalse
      exact Bool.noConfusion hfalse
    have : removeNul s = s := by
      unfold removeNul
      apply List.filter_eq_self.mpr
      intro c hc
      simpa using hall c hc
    simp [hfalse, this]

/-- Helper: `CString::new` on the sanitized string always succeeds. -/
theorem cstringNew_sanitize (s : RStr) :
    cstringNew (sanitize s) = some (removeNul s) := by
  rw [sanitize_eq_removeNul]
  unfold cstringNew
  simp [hasNul_removeNul]

/-- Helper: `to_cstring` computes exactly the NUL-free sanitization. -/
theorem to_cstring_eq (s : RStr) : to_cstring s = removeNul s := by
  unfold to_cstring
  rw [cstringNew_sanitize]
  rfl

/-- Helper: marshalled strings carry no interior NUL byte, so they are
valid contents for a NUL-terminated C buffer. -/
theorem hasNul_to_cstring (s : RStr) : hasNul (to_cstring s) = false := by
  rw [to_cstring_eq]
  exact hasNul_removeNul s

/-- C9: every string crossing the native boundary has embedded NUL bytes
silently removed before conversion to a C string; the conversion itself
then always succeeds (the error fallbacks of `to_cstring` and
`CStringHolder::new` are unreachable), so sanitization never rejects an
input. -/
theorem sanitize_removes_nul_and_never_fails (s : RStr) :
    cstringNew (sanitize s) = some (removeNul s)
      ∧ to_cstring s = removeNul s
      ∧ cstringHolderNew s = removeNul s := by
  refine ⟨cstringNew_sanitize s, to_cstring_eq s, ?_⟩
  unfold cstringHolderNew
  rw [cstringNew_sanitize]
  rfl

/-- C10: the numeric encodings of log levels are mutually inverse — the
`tracing_layer` `u8` rank round-trips through `level_from_u8`, and the JNI
ordinal produced by `nativeGetLevel` round-trips through `to_log_level`. -/
theorem level_encoding_roundtrip :
    (∀ level : LogLevel, level_from_u8 (level_to_u8 level) = level)
      ∧ (∀ level : LogLevel, to_log_level (nativeGetLevel_ordinal level) = level) := by
  constructor <;> intro level <;> cases level <;> rfl

/-- C2: any configuration whose log_dir or name prefix is empty makes
`Xlog::new`/`init`, `appender_open` and `oneshot_flush` fail with
`InvalidConfig`, with an empty event trace: no marshalling and no call
into the engine happens. -/
theorem empty_required_field_fails_fast (e : Engine) (cfg : XlogConfig)
    (level : LogLevel) (h : cfg.log_dir = [] ∨ cfg.namePrefix = []) :
    Xlog.new e cfg level = (.error .invalidConfig, [])
      ∧ Xlog.appender_open e cfg level = (.error .invalidConfig, [])
      ∧ Xlog.oneshot_flush e cfg = (.error .invalidConfig, []) := by
  have hb : (cfg.log_dir.isEmpty || cfg.namePrefix.isEmpty) = true := by
    obtain h | h := h <;> simp [h]
  refine ⟨?_, ?_, ?_⟩ <;>
    simp [Xlog.new, Xlog.appender_open, Xlog.oneshot_flush, hb]

/-- C2 witness: a concrete empty-log_dir configuration fails fast on all
three creation entry points against the trivial engine. -/
theorem empty_required_field_fails_fast_witness :
    (((XlogConfig.mk' [] ['a']).log_dir = [] ∨ (XlogConfig.mk' [] ['a']).namePrefix = [])
      ∧ Xlog.new trivEngine (XlogConfig.mk' [] ['a']) .info = (.error .invalidConfig, [])
      ∧ Xlog.appender_open trivEngine (XlogConfig.mk' [] ['a']) .info = (.error .invalidConfig, [])
      ∧ Xlog.oneshot_flush trivEngine (XlogConfig.mk' [] ['a']) = (.error .invalidConfig, [])) := by
  have h := empty_required_field_fails_fast trivEngine (XlogConfig.mk' [] ['a']) .info
    (Or.inl rfl)
  exact ⟨Or.inl rfl, h.1, h.2.1, h.2.2⟩

/-- C3: an unset optional field (pub_key, cache_dir) marshals to the null
pointer, never to a pointer at an empty string; a set optional field
marshals to a non-null pointer whose NUL-free contents are owned by the
storage vector returned alongside the parameter block (which the callers
keep alive until the native call returns). -/
theorem optional_fields_marshal_null_or_owned (cfg : XlogConfig) :
    (cfg.pub_key = Option.none → (cfg.to_sys).1.pub_key = Option.none)
      ∧ (∀ s, cfg.pub_key = some s →
          (cfg.to_sys).1.pub_key = some (to_cstring s)
            ∧ to_cstring s ∈ (cfg.to_sys).2
            ∧ hasNul (to_cstring s) = false)
      ∧ (cfg.cache_dir = Option.none → (cfg.to_sys).1.cache_dir = Option.none)
      ∧ (∀ s, cfg.cache_dir = some s →
          (cfg.to_sys).1.cache_dir = some (to_cstring s)
            ∧ to_cstring s ∈ (cfg.to_sys).2
            ∧ hasNul (to_cstring s) = false) := by
  refine ⟨?_, ?_, ?_, ?_⟩
  · intro h
    cases hcd : cfg.cache_dir <;> simp [XlogConfig.to_sys, h, hcd]
  · intro s hs
    cases hcd : cfg.cache_dir <;>
      simp [XlogConfig.to_sys, hs, hcd, hasNul_to_cstring]
  · intro h
    cases hpk : cfg.pub_key <;> simp [XlogConfig.to_sys, h, hpk]
  · intro s hs
    cases hpk : cfg.pub_key <;>
      simp [XlogConfig.to_sys, hs, hpk, hasNul_to_cstring]

/-- C3 witness: with pub_key set and cache_dir unset, the marshalled block
has a null cache_dir and a storage-owned pub_key string. -/
theorem optional_fields_marshal_witness :
    cfgPubOnly.pub_key = some ['k']
      ∧ cfgPubOnly.cache_dir = Option.none
      ∧ (cfgPubOnly.to_sys).1.cache_dir = Option.none
      ∧ (cfgPubOnly.to_sys).1.pub_key = some (to_cstring ['k'])
      ∧ to_cstring ['k'] ∈ (cfgPubOnly.to_sys).2 := by
  have h := optional_fields_marshal_null_or_owned cfgPubOnly
  exact ⟨rfl, rfl, h.2.2.1 rfl, (h.2.1 ['k'] rfl).1, (h.2.1 ['k'] rfl).2.1⟩

/-- C8: when the relevant gate reports the level disabled, every write
path (`write`, `log`, `write_with_meta`, and the tracing layer's
`on_event` through either its own gate or the handle's gate) returns with
an empty event trace: no formatting, no marshalling, no native write. -/
theorem disabled_level_gates_all_write_paths (e : Engine) (inner : Inner)
    (L : XlogLayer) (level : LogLevel) (tag : Option RStr)
    (file func msg : RStr) (line : Nat) (ev : TracingEvent) :
    (Xlog.is_enabled e inner level = false →
        Xlog.write_with_meta e inner level tag file func line msg = []
          ∧ Xlog.write e inner level tag msg = []
          ∧ Xlog.log e inner level tag file line msg = [])
      ∧ ((XlogLayer.is_enabled_for L (tracing_level_to_log_level ev.level) = false
            ∨ Xlog.is_enabled e L.state.logger
                (tracing_level_to_log_level ev.level) = false) →
          XlogLayer.on_event e L ev = []) := by
  constructor
  · intro h
    refine ⟨?_, ?_, ?_⟩ <;>
      simp [Xlog.write_with_meta, Xlog.write, Xlog.log, h]
  · intro h
    by_cases hn : tracing_level_to_log_level ev.level = LogLevel.none
    · simp [XlogLayer.on_event, hn]
    · obtain h | h := h
      · simp [XlogLayer.on_event, hn, h]
      · by_cases hg :
          XlogLayer.is_enabled_for L (tracing_level_to_log_level ev.level) = true
        · simp [XlogLayer.on_event, hn, hg, h]
        · have hg2 :
              XlogLayer.is_enabled_for L (tracing_level_to_log_level ev.level)
                = false := by
            simpa using hg
          simp [XlogLayer.on_event, hn, hg2]

/-- C8 witness: against the all-zero engine the Info level is disabled
and every concrete write path produces the empty trace. -/
theorem disabled_level_gates_all_write_paths_witness :
    Xlog.is_enabled trivEngine innerEx .info = false
      ∧ Xlog.write_with_meta trivEngine innerEx .info Option.none [] [] 0 ['m'] = []
      ∧ Xlog.write trivEngine innerEx .info Option.none ['m'] = []
      ∧ Xlog.log trivEngine innerEx .info Option.none [] 0 ['m'] = []
      ∧ XlogLayer.on_event trivEngine layerEx evEx = [] := by
  have h := disabled_level_gates_all_write_paths trivEngine innerEx layerEx
    .info Option.none [] [] ['m'] 0 evEx
  have hdis : Xlog.is_enabled trivEngine innerEx .info = false := by decide
  exact ⟨hdis, (h.1 hdis).1, (h.1 hdis).2.1, (h.1 hdis).2.2,
    h.2 (Or.inr (by decide))⟩

/-- Helper: one ownership step preserves the lifecycle invariant. -/
theorem stepOwn_inv (namePfx : RStr) (s s2 : LifeState) (op : OwnOp)
    (h : lifeInv namePfx s) (hstep : stepOwn namePfx s op = some s2) :
    lifeInv namePfx s2 := by
  cases op with
  | clone =>
      simp only [stepOwn] at hstep
      by_cases h0 : s.owners = 0
      · rw [if_pos h0] at hstep
        exact Option.noConfusion hstep
      · rw [if_neg h0] at hstep
        injection hstep with hs2
        obtain ⟨ho, hr⟩ | ⟨ho, hr⟩ := h
        · exact absurd ho h0
        · right
          rw [← hs2]
          exact ⟨Nat.succ_pos _, hr⟩
  | drop =>
      simp only [stepOwn] at hstep
      by_cases h0 : s.owners = 0
      · rw [if_pos h0] at hstep
        exact Option.noConfusion hstep
      · rw [if_neg h0] at hstep
        by_cases h1 : s.owners = 1
        · rw [if_pos h1] at hstep
          injection hstep with hs2
          obtain ⟨ho, hr⟩ | ⟨ho, hr⟩ := h
          · exact absurd ho h0
          · left
            rw [← hs2]
            exact ⟨rfl, by simp [hr]⟩
        · rw [if_neg h1] at hstep
          injection hstep with hs2
          obtain ⟨ho, hr⟩ | ⟨ho, hr⟩ := h
          · exact absurd ho h0
          · right
            rw [← hs2]
            refine ⟨?_, hr⟩
            show 0 < s.owners - 1
            omega

/-- Helper: the lifecycle invariant is preserved along any run. -/
theorem runOwn_inv (namePfx : RStr) (ops : List OwnOp) :
    ∀ s s2, lifeInv namePfx s → runOwn namePfx s ops = some s2 →
      lifeInv namePfx s2 := by
  induction ops with
  | nil =>
      intro s s2 h hrun
      simp only [runOwn, Option.some.injEq] at hrun
      rw [← hrun]
      exact h
  | cons op ops ih =>
      intro s s2 h hrun
      simp only [runOwn] at hrun
      cases hstep : stepOwn namePfx s op with
      | none =>
          rw [hstep] at hrun
          exact Option.noConfusion hrun
      | some s1 =>
          rw [hstep] at hrun
          exact ih s1 s2 (stepOwn_inv namePfx s s1 op h hstep) hrun

/-- C1 counterexample: a handle whose name prefix contains an embedded
NUL byte ('a' followed by NUL) is released under the fallback key "xlog",
not under its own name prefix, when its last owner is dropped. -/
theorem release_key_fallback_counterexample :
    runOwn ['a', nulChar] initLife [OwnOp.drop]
        = some ⟨0, ["xlog".toList]⟩
      ∧ releaseKey ['a', nulChar] = "xlog".toList
      ∧ "xlog".toList ≠ ['a', nulChar] := by
  refine ⟨by decide, by decide, by decide⟩

/-- C1 (amended): for every handle, over any sequence of clones and drops
of its shared owners (in whatever bridge they live), the native release is
invoked exactly once, at the drop of the last owner, and never before;
the release key is the handle's name prefix whenever that prefix has no
embedded NUL byte (a NUL-containing prefix falls back to the key
"xlog"). -/
theorem release_exactly_once_on_last_drop (namePfx : RStr)
    (ops : List OwnOp) (s : LifeState)
    (h : runOwn namePfx initLife ops = some s) :
    (s.owners = 0 → s.releases = [releaseKey namePfx])
      ∧ (0 < s.owners → s.releases = [])
      ∧ (hasNul namePfx = false → releaseKey namePfx = namePfx) := by
  have hinv : lifeInv namePfx s :=
    runOwn_inv namePfx ops initLife s (Or.inr ⟨Nat.one_pos, rfl⟩) h
  refine ⟨?_, ?_, ?_⟩
  · intro h0
    obtain ⟨_, hr⟩ | ⟨ho, _⟩ := hinv
    · exact hr
    · omega
  · intro hpos
    obtain ⟨ho, _⟩ | ⟨_, hr⟩ := hinv
    · omega
    · exact hr
  · intro hn
    simp [releaseKey, hn]

/-- C1 witness: one clone and two drops of a NUL-free handle release
exactly once, under the handle's own name prefix. -/
theorem release_exactly_once_on_last_drop_witness :
    runOwn ['p'] initLife [OwnOp.clone, OwnOp.drop, OwnOp.drop]
        = some ⟨0, [['p']]⟩
      ∧ (LifeState.mk 0 [['p']]).releases = [releaseKey ['p']] := by
  have h := release_exactly_once_on_last_drop ['p']
    [OwnOp.clone, OwnOp.drop, OwnOp.drop] ⟨0, [['p']]⟩ (by decide)
  exact ⟨by decide, h.1 rfl⟩

/-- C7: removing an id reports whether an entry existed; after a removal
the lookup misses (never a stale handle) and a second removal returns
false rather than an error; `nativeReleaseLogger` maps handle 0 to
false. -/
theorem registry_remove_semantics (s : RegState) (id : Int) :
    (remove_logger id s).1 = (get_logger id s).isSome
      ∧ get_logger id (remove_logger id s).2 = Option.none
      ∧ (remove_logger id (remove_logger id s).2).1 = false
      ∧ (nativeReleaseLogger 0 s).1 = false := by
  refine ⟨rfl, ?_, ?_, ?_⟩
  · simp [get_logger, remove_logger]
  · simp [remove_logger]
  · simp [nativeReleaseLogger]

/-- Helper: `wrap64` absorbs an already-wrapped left summand. -/
theorem wrap64_wrap64_add (a b : Int) :
    wrap64 (wrap64 a + b) = wrap64 (a + b) := by
  unfold wrap64
  omega

/-- Helper: `wrap64` is the identity on the i64 range. -/
theorem wrap64_eq_self (a : Int) (h1 : -9223372036854775808 ≤ a)
    (h2 : a < 9223372036854775808) : wrap64 a = a := by
  unfold wrap64
  omega

/-- Helper: iterating the wrapped increment from a wrapped start is a
single wrapped addition. -/
theorem iterWrap_wrap64 (k : Nat) :
    ∀ c : Int, iterWrap (wrap64 c) k = wrap64 (c + k) := by
  induction k with
  | zero =>
      intro c
      simp [iterWrap]
  | succ k ih =>
      intro c
      have h1 : iterWrap (wrap64 c) (k + 1)
          = iterWrap (wrap64 (wrap64 c + 1)) k := rfl
      rw [h1, wrap64_wrap64_add, ih (c + 1)]
      congr 1
      push_cast
      ring

/-- Helper: the ids returned by the inserts of a run are the successive
wrapped increments of the starting counter; removals do not disturb the
counter. -/
theorem regRun_ids (ops : List RegOp) :
    ∀ s : RegState,
      (regRun s ops).2
        = (List.range (countInserts ops)).map (iterWrap s.nextId) := by
  induction ops with
  | nil =>
      intro s
      simp [regRun, countInserts]
  | cons op ops ih =>
      intro s
      cases op with
      | insert h =>
          have hstep : (regRun s (RegOp.insert h :: ops)).2
              = s.nextId :: (regRun (insert_logger h s).2 ops).2 := rfl
          rw [hstep, ih]
          simp only [countInserts]
          rw [List.range_succ_eq_map, List.map_cons, List.map_map]
          congr 1
      | remove id =>
          have hstep : (regRun s (RegOp.remove id :: ops)).2
              = (regRun (remove_logger id s).2 ops).2 := rfl
          rw [hstep, ih]
          rfl

/-- Helper: a pure-insert trace has as many inserts as its length. -/
theorem countInserts_insertsOnly (n : Nat) :
    countInserts (insertsOnly n) = n := by
  induction n with
  | zero => rfl
  | succ n ih =>
      show countInserts (List.replicate (n + 1) (RegOp.insert 0)) = n + 1
      rw [List.replicate_succ]
      show countInserts (insertsOnly n) + 1 = n + 1
      rw [ih]

/-- C6 counterexample: the id counter is a wrapping `AtomicI64`, so after
2^63 inserts the returned id (-2^63) is strictly smaller than the very
first id (1), refuting unconditional monotonicity. -/
theorem insert_ids_wrap_counterexample :
    ((regRun regInit (insertsOnly 9223372036854775808)).2)[0]? = some 1
      ∧ ((regRun regInit (insertsOnly 9223372036854775808)).2)[9223372036854775807]?
          = some (-9223372036854775808)
      ∧ (-9223372036854775808 : Int) < 1 := by
  have hids := regRun_ids (insertsOnly 9223372036854775808) regInit
  have hcnt : countInserts (insertsOnly 9223372036854775808)
      = 9223372036854775808 := countInserts_insertsOnly _
  rw [hcnt] at hids
  have hone : regInit.nextId = 1 := rfl
  rw [hone] at hids
  have hlast : iterWrap 1 9223372036854775807 = -9223372036854775808 := by
    have h1 : (1 : Int) = wrap64 1 :=
      (wrap64_eq_self 1 (by norm_num) (by norm_num)).symm
    rw [h1, iterWrap_wrap64]
    decide
  refine ⟨?_, ?_, by norm_num⟩
  · rw [hids, List.getElem?_map, List.getElem?_range (by norm_num)]
    rfl
  · rw [hids, List.getElem?_map, List.getElem?_range (by norm_num)]
    simp [hlast]

/-- C6 (amended): as long as fewer than 2^63 inserts have occurred, every
insert returns an id strictly greater than every previously returned id,
ids are at least 1 (0 is never allocated) and are never reused even after
their entries are removed, across any interleaving of inserts and
removals. -/
theorem insert_ids_monotone (ops : List RegOp)
    (h : countInserts ops < 9223372036854775808) :
    List.Pairwise (· < ·) (regRun regInit ops).2
      ∧ ∀ id ∈ (regRun regInit ops).2, 1 ≤ id ∧ id ≠ 0 := by
  have hids := regRun_ids ops regInit
  have hone : regInit.nextId = 1 := rfl
  rw [hone] at hids
  have hval : ∀ k, k < countInserts ops → iterWrap 1 k = 1 + (k : Int) := by
    intro k hk
    have h1 : (1 : Int) = wrap64 1 :=
      (wrap64_eq_self 1 (by norm_num) (by norm_num)).symm
    rw [h1, iterWrap_wrap64]
    apply wrap64_eq_self <;> omega
  have hmap : (List.range (countInserts ops)).map (iterWrap 1)
      = (List.range (countInserts ops)).map (fun k : Nat => 1 + (k : Int)) := by
    apply List.map_congr_left
    intro k hk
    exact hval k (List.mem_range.mp hk)
  constructor
  · rw [hids, hmap]
    have hp : List.Pairwise (· < ·) (List.range (countInserts ops)) :=
      List.pairwise_lt_range _
    exact hp.map _ (by intro a b hab; omega)
  · rw [hids, hmap]
    intro id hid
    rw [List.mem_map] at hid
    obtain ⟨k, _, hk⟩ := hid
    omega

/-- C6 witness: a concrete trace of two inserts around a removal returns
strictly increasing, nonzero ids. -/
theorem insert_ids_monotone_witness :
    countInserts [RegOp.insert 5, RegOp.remove 1, RegOp.insert 7]
        < 9223372036854775808
      ∧ List.Pairwise (· < ·)
          (regRun regInit [RegOp.insert 5, RegOp.remove 1, RegOp.insert 7]).2
      ∧ ∀ id ∈ (regRun regInit
            [RegOp.insert 5, RegOp.remove 1, RegOp.insert 7]).2,
          1 ≤ id ∧ id ≠ 0 := by
  have hh : countInserts [RegOp.insert 5, RegOp.remove 1, RegOp.insert 7]
      < 9223372036854775808 := by decide
  have h := insert_ids_monotone [RegOp.insert 5, RegOp.remove 1, RegOp.insert 7] hh
  exact ⟨hh, h.1, h.2⟩

/-- Helper: reading up to the first NUL of a NUL-free string padded with
NUL bytes recovers exactly that string. -/
theorem cstrRead_append_replicate (xs : RStr) (k : Nat)
    (h : hasNul xs = false) :
    cstrRead (xs ++ List.replicate k nulChar) = xs := by
  induction xs with
  | nil =>
      cases k with
      | zero => rfl
      | succ k =>
          simp [cstrRead, List.replicate_succ, List.takeWhile_cons]
  | cons c cs ih =>
      rw [hasNul, List.any_cons, Bool.or_eq_false_iff] at h
      have hcne : ¬ c = nulChar := by simpa using h.1
      have hcs : hasNul cs = false := h.2
      rw [List.cons_append]
      show List.takeWhile (fun c => c ≠ nulChar)
          (c :: (cs ++ List.replicate k nulChar)) = c :: cs
      rw [List.takeWhile_cons, if_pos (by simp [hcne])]
      rw [show List.takeWhile (fun c => decide (c ≠ nulChar))
          (cs ++ List.replicate k nulChar)
            = cstrRead (cs ++ List.replicate k nulChar) from rfl]
      rw [ih hcs]

/-- C4: a variable-length query probes once with the fixed 4096-byte
buffer; when the required length exceeds that capacity it resizes the
buffer to exactly the required length (hence at least the required
length) and calls exactly one more time; in total at most two native
calls happen. -/
theorem probe_then_resize_calls_at_most_twice (r : NativeReply) :
    (read_joined r).2.length ≤ 2
      ∧ (read_joined r).2.head? = some 4096
      ∧ (r.required ≤ 4096 → (read_joined r).2 = [4096])
      ∧ (4096 < r.required → (read_joined r).2 = [4096, r.required]) := by
  by_cases h : 4096 < r.required
  · have hb1 : callNative r (List.replicate 4096 nulChar)
        = List.replicate 4096 nulChar := by
      unfold callNative
      rw [if_neg]
      rw [List.length_replicate]
      omega
    have hcaps : (read_joined r).2 = [4096, r.required] := by
      simp only [read_joined]
      rw [if_pos h, hb1]
      simp only [List.length_append, List.length_replicate]
      have hlen : 4096 + (r.required - 4096) = r.required := by omega
      rw [hlen]
    refine ⟨by rw [hcaps]; norm_num, by rw [hcaps]; rfl,
      fun hle => absurd h (by omega), fun _ => hcaps⟩
  · have hcaps : (read_joined r).2 = [4096] := by
      simp only [read_joined]
      rw [if_neg h]
    exact ⟨by rw [hcaps]; norm_num, by rw [hcaps]; rfl,
      fun _ => hcaps, fun hlt => absurd hlt h⟩

/-- C4 witness: the paragraph-8 scenario — a required length of 10000
against the 4096-byte probe buffer retries exactly once with a
10000-byte buffer. -/
theorem probe_then_resize_calls_at_most_twice_witness :
    4096 < (NativeReply.mk 10000 []).required
      ∧ (read_joined (NativeReply.mk 10000 [])).2 = [4096, 10000] := by
  have h := probe_then_resize_calls_at_most_twice (NativeReply.mk 10000 [])
  exact ⟨by norm_num, h.2.2.2 (by norm_num)⟩

/-- C5: for a well-formed native reply (required length = content length
plus the terminator, NUL-free content) the retrieved string is exactly
the native content and the returned sequence is its newline split, with
the empty string mapping to the empty sequence (never [""]). -/
theorem read_joined_is_newline_split (r : NativeReply)
    (hreq : r.required = r.content.length + 1)
    (hnul : hasNul r.content = false) :
    (read_joined r).1
        = (if r.content.isEmpty then [] else splitNl r.content) := by
  by_cases h : 4096 < r.required
  · have hb1 : callNative r (List.replicate 4096 nulChar)
        = List.replicate 4096 nulChar := by
      unfold callNative
      rw [if_neg]
      rw [List.length_replicate]
      omega
    have hlen2 : (List.replicate 4096 nulChar
        ++ List.replicate (r.required - (List.replicate 4096 nulChar).length)
            nulChar).length = r.required := by
      simp only [List.length_append, List.length_replicate]
      omega
    have hb3 : callNative r (List.replicate 4096 nulChar
        ++ List.replicate (r.required - (List.replicate 4096 nulChar).length)
            nulChar)
        = r.content ++ List.replicate (r.required - r.content.length)
            nulChar := by
      unfold callNative
      rw [if_pos (by rw [hlen2]), hlen2]
    simp only [read_joined]
    rw [if_pos h, hb1]
    rw [show (List.replicate 4096 nulChar).length = 4096 from
      List.length_replicate 4096 nulChar] at hb3 ⊢
    rw [hb3, cstrRead_append_replicate r.content _ hnul]
  · have hb1 : callNative r (List.replicate 4096 nulChar)
        = r.content ++ List.replicate (4096 - r.content.length) nulChar := by
      unfold callNative
      rw [if_pos, List.length_replicate]
      rw [List.length_replicate]
      omega
    simp only [read_joined]
    rw [if_neg h, hb1, cstrRead_append_replicate r.content _ hnul]

/-- C5 witness: a concrete reply "a\nb" splits into ["a", "b"]. -/
theorem read_joined_is_newline_split_witness :
    (NativeReply.mk 4 ['a', '\n', 'b']).required
        = (NativeReply.mk 4 ['a', '\n', 'b']).content.length + 1
      ∧ hasNul (NativeReply.mk 4 ['a', '\n', 'b']).content = false
      ∧ (read_joined (NativeReply.mk 4 ['a', '\n', 'b'])).1 = [['a'], ['b']] := by
  have h := read_joined_is_newline_split (NativeReply.mk 4 ['a', '\n', 'b'])
    rfl (by decide)
  refine ⟨rfl, by decide, ?_⟩
  rw [h]
  decide

end XlogRs
